import Mathlib

/-!
Verification development for the spellbook core of the repository
(`Exercises-Projects-and-Labs/ex4/ex4.h`).

The header `ex4.h` declares `Spellbook` and `MasterSpellbook` together with
detailed behavioural doc comments, but the member-function bodies
(`Spellbook::Spellbook`, `learnSpell`, `castSpell`, `printSpells`,
`restoreMana`, `MasterSpellbook::MasterSpellbook`,
`MasterSpellbook::learnSpell`) are not part of the repository sources.
Those operations are therefore modelled from the specification
(spec.md sections 3, 4 and 6), faithful to its words; the `Spell` data type
and its two constructors are embedded directly from the source, where they
are defined inline.

Exceptions are modelled as explicit error messages: a C++ `Exception` with
message `m` corresponds to `err = some m` in an `OpResult`, and the object
state carried alongside is the state observable after the call (the spec
guarantees failures never mutate state).
-/

/-- Structural capacity of a spellbook, embedded from `const int MAX_SPELLS = 5;`. -/
def MAX_SPELLS : Nat := 5

/-- Element tags, embedded from `enum ElementType` in ex4.h. -/
inductive ElementType where
  | Fire
  | Ice
  | Lightning
  | Earth
  | Wind
deriving DecidableEq, Repr

/-- Names of the element tags, embedded from `const std::string elementTypeNames[]`. -/
def elementTypeNames : ElementType → String
  | .Fire => "Fire"
  | .Ice => "Ice"
  | .Lightning => "Lightning"
  | .Earth => "Earth"
  | .Wind => "Wind"

/-- Ability record, embedded from `struct Spell` in ex4.h. The mana cost is a
C++ `int`, modelled as an unbounded integer; neither constructor validates the
documented field preconditions. -/
structure Spell where
  name : String
  element : ElementType
  manaCost : Int
deriving DecidableEq, Repr

/-- Default constructor `Spell()`, embedded from the inline body
`name(""), element(ElementType::Fire), manaCost(0)` in ex4.h. -/
def mkDefaultSpell : Spell := ⟨"", ElementType.Fire, 0⟩

/-- Three-argument constructor `Spell(const std::string&, ElementType, int)`,
embedded from the inline body `name(n), element(e), manaCost(c)` in ex4.h:
the fields are taken verbatim, with no validation. -/
def mkSpell (n : String) (e : ElementType) (c : Int) : Spell := ⟨n, e, c⟩

/-- Result of one operation on a manager: the post-call state (equal to the
pre-call state whenever `err` is set), the error message of a thrown
exception if any, and the text emitted to stdout. -/
structure OpResult (σ : Type) where
  state : σ
  err : Option String
  out : String
deriving DecidableEq, Repr

/-- Manager state, embedded from the data members of `class Spellbook`:
`Spell spells[MAX_SPELLS]`, `int spellCount`, `int maxMana`,
`int currentMana`. The slot array is a list of fixed length `MAX_SPELLS`;
indices below `spellCount` are the occupied slots. -/
structure Spellbook where
  spells : List Spell
  spellCount : Nat
  maxMana : Int
  currentMana : Int
deriving DecidableEq, Repr

/-- Occupied slots of the book, in slot order: indices `0 .. spellCount - 1`. -/
def Spellbook.occupied (b : Spellbook) : List Spell := b.spells.take b.spellCount

/-- Index of the first slot among the given slots holding a spell named `n`. -/
def findSlot (n : String) : List Spell → Option Nat
  | [] => none
  | t :: ts => if t.name = n then some 0 else (findSlot n ts).map (· + 1)

/-- First spell named `n` among the given slots. -/
def findSpell (n : String) : List Spell → Option Spell
  | [] => none
  | t :: ts => if t.name = n then some t else findSpell n ts

/-- Modelled from the spec: the missing body of the `Spellbook` default
constructor. Section 3 lifecycle: `poolMax = 100`, `poolCurrent = 50`,
`count = 0`, five empty slots. -/
def mkSpellbook : Spellbook :=
  ⟨List.replicate MAX_SPELLS mkDefaultSpell, 0, 100, 50⟩

/-- Modelled from the spec: the missing body of `Spellbook::learnSpell`
(spec section 4.1). Step 1: a slot whose spell has the same name is
overwritten in place, before any failure check. Step 2: with no name match
and `count == capacity`, fail with "The spellbook is full!" and no mutation.
Step 3: otherwise append into slot `count` and increment `count`. -/
def Spellbook.learnSpell (b : Spellbook) (s : Spell) : OpResult Spellbook :=
  match findSlot s.name b.occupied with
  | some i => ⟨{ b with spells := b.spells.set i s }, none, ""⟩
  | none =>
    if b.spellCount = MAX_SPELLS then
      ⟨b, some "The spellbook is full!", ""⟩
    else
      ⟨{ b with spells := b.spells.set b.spellCount s,
                spellCount := b.spellCount + 1 }, none, ""⟩

/-- Modelled from the spec: the missing body of `Spellbook::castSpell`
(spec section 4.3). Lookup among stored abilities; fail with
"Spell [name] not learned!" if absent; only after confirming existence,
fail with "Not enough mana to cast [name]!" if `poolCurrent < cost`;
on success deduct the cost and emit "Casted [name].\n"; the spell stays. -/
def Spellbook.castSpell (b : Spellbook) (n : String) : OpResult Spellbook :=
  match findSpell n b.occupied with
  | none => ⟨b, some ("Spell " ++ n ++ " not learned!"), ""⟩
  | some t =>
    if b.currentMana < t.manaCost then
      ⟨b, some ("Not enough mana to cast " ++ n ++ "!"), ""⟩
    else
      ⟨{ b with currentMana := b.currentMana - t.manaCost }, none,
        "Casted " ++ n ++ ".\n"⟩

/-- Text of one line of `printSpells` output:
"[Name] ([Element]) - [Cost] mana.\n". -/
def spellLine (t : Spell) : String :=
  t.name ++ " (" ++ elementTypeNames t.element ++ ") - " ++
    toString t.manaCost ++ " mana.\n"

/-- Modelled from the spec: the missing body of `Spellbook::printSpells`
(spec section 4.4). With `count == 0`, fail with "Spellbook is empty!" and
emit nothing; otherwise emit one line per occupied slot in slot order,
then "Total spells: [count].\n". -/
def Spellbook.printSpells (b : Spellbook) : OpResult Spellbook :=
  if b.spellCount = 0 then
    ⟨b, some "Spellbook is empty!", ""⟩
  else
    ⟨b, none,
      String.join (b.occupied.map spellLine) ++
        "Total spells: " ++ toString b.spellCount ++ ".\n"⟩

/-- Modelled from the spec: the missing body of `Spellbook::restoreMana`
(spec section 4.5). Fail with "Restore amount must be positive!" when
`amount <= 0`, checked unconditionally on every call; otherwise
`poolCurrent = min(poolMax, poolCurrent + amount)`. -/
def Spellbook.restoreMana (b : Spellbook) (amount : Int) : OpResult Spellbook :=
  if amount ≤ 0 then
    ⟨b, some "Restore amount must be positive!", ""⟩
  else
    ⟨{ b with currentMana := min b.maxMana (b.currentMana + amount) }, none, ""⟩

/-- Specialized manager state, embedded from the data members of
`class MasterSpellbook : public Spellbook`: the inherited base state plus
`ElementType forbiddenElement` and `int maxSpellCount`. -/
structure MasterSpellbook where
  base : Spellbook
  forbiddenElement : ElementType
  maxSpellCount : Nat
deriving DecidableEq, Repr

/-- Modelled from the spec: the missing body of the `MasterSpellbook`
constructor (spec sections 3 and 4.6). Fail with
"The master spellbook can hold at least 1 spell!" when the requested
capacity is below 1; clamp a request above `MAX_SPELLS` silently to
`MAX_SPELLS`; start with `poolMax = 150`, `poolCurrent = 100`, `count = 0`
and the supplied forbidden element. -/
def mkMasterSpellbook (forbidden : ElementType) (maxSpells : Int) :
    Except String MasterSpellbook :=
  if maxSpells < 1 then
    Except.error "The master spellbook can hold at least 1 spell!"
  else
    Except.ok ⟨⟨List.replicate MAX_SPELLS mkDefaultSpell, 0, 150, 100⟩,
      forbidden, (min maxSpells (Int.ofNat MAX_SPELLS)).toNat⟩

/-- Modelled from the spec: the missing body of the override
`MasterSpellbook::learnSpell` (spec section 4.2), with the load-bearing
evaluation order: 1. name-match overwrite, before every failure;
2. forbidden-element check, message
"[Element] is forbidden in the master spellbook!"; 3. capacity check against
the configured `maxSpellCount`, message "The master spellbook is full!";
4. otherwise append as in the base class. -/
def MasterSpellbook.learnSpell (m : MasterSpellbook) (s : Spell) :
    OpResult MasterSpellbook :=
  match findSlot s.name m.base.occupied with
  | some i =>
    ⟨{ m with base := { m.base with spells := m.base.spells.set i s } }, none, ""⟩
  | none =>
    if s.element = m.forbiddenElement then
      ⟨m, some (elementTypeNames s.element ++
        " is forbidden in the master spellbook!"), ""⟩
    else if m.base.spellCount = m.maxSpellCount then
      ⟨m, some "The master spellbook is full!", ""⟩
    else
      ⟨{ m with base := { m.base with
          spells := m.base.spells.set m.base.spellCount s,
          spellCount := m.base.spellCount + 1 } }, none, ""⟩

/-- Inherited `castSpell` on a `MasterSpellbook`: the base-class method
acting on the base-class sub-state (it is not overridden in ex4.h). -/
def MasterSpellbook.castSpell (m : MasterSpellbook) (n : String) :
    OpResult MasterSpellbook :=
  let r := m.base.castSpell n
  ⟨{ m with base := r.state }, r.err, r.out⟩

/-- Inherited `printSpells` on a `MasterSpellbook`. -/
def MasterSpellbook.printSpells (m : MasterSpellbook) : OpResult MasterSpellbook :=
  let r := m.base.printSpells
  ⟨{ m with base := r.state }, r.err, r.out⟩

/-- Inherited `restoreMana` on a `MasterSpellbook`. -/
def MasterSpellbook.restoreMana (m : MasterSpellbook) (amount : Int) :
    OpResult MasterSpellbook :=
  let r := m.base.restoreMana amount
  ⟨{ m with base := r.state }, r.err, r.out⟩

/-- One call of the public mutating interface of a manager. -/
inductive Op where
  | learn (s : Spell)
  | cast (n : String)
  | printAll
  | restore (amount : Int)
deriving DecidableEq, Repr

/-- State reached by a base `Spellbook` after one call. -/
def Spellbook.step (b : Spellbook) : Op → Spellbook
  | .learn s => (b.learnSpell s).state
  | .cast n => (b.castSpell n).state
  | .printAll => b.printSpells.state
  | .restore a => (b.restoreMana a).state

/-- State reached by a base `Spellbook` after a sequence of calls. -/
def Spellbook.run (b : Spellbook) : List Op → Spellbook
  | [] => b
  | op :: ops => (b.step op).run ops

/-- State reached by a `MasterSpellbook` after one call, with the
overridden `learnSpell`. -/
def MasterSpellbook.step (m : MasterSpellbook) : Op → MasterSpellbook
  | .learn s => (m.learnSpell s).state
  | .cast n => (m.castSpell n).state
  | .printAll => m.printSpells.state
  | .restore a => (m.restoreMana a).state

/-- State reached by a `MasterSpellbook` after a sequence of calls. -/
def MasterSpellbook.run (m : MasterSpellbook) : List Op → MasterSpellbook
  | [] => m
  | op :: ops => (m.step op).run ops

/-- Hypothesis of the invariant claim: every spell passed to `learnSpell`
has a non-negative mana cost. -/
def costOk : Op → Prop
  | .learn s => 0 ≤ s.manaCost
  | _ => True

/-- Names of the occupied slots, in slot order. -/
def Spellbook.names (b : Spellbook) : List String := b.occupied.map Spell.name

/-- State invariant of a base `Spellbook`: five structural slots, occupied
count within capacity, mana within bounds, unique names and non-negative
costs among the occupied slots. -/
def Spellbook.Inv (b : Spellbook) : Prop :=
  b.spells.length = MAX_SPELLS ∧
  b.spellCount ≤ MAX_SPELLS ∧
  0 ≤ b.currentMana ∧
  b.currentMana ≤ b.maxMana ∧
  b.names.Nodup ∧
  ∀ t ∈ b.occupied, 0 ≤ t.manaCost

/-- State invariant of a `MasterSpellbook`: the base invariant strengthened
with the configured effective capacity. -/
def MasterSpellbook.Inv (m : MasterSpellbook) : Prop :=
  m.base.spells.length = MAX_SPELLS ∧
  m.base.spellCount ≤ m.maxSpellCount ∧
  m.maxSpellCount ≤ MAX_SPELLS ∧
  0 ≤ m.base.currentMana ∧
  m.base.currentMana ≤ m.base.maxMana ∧
  m.base.names.Nodup ∧
  ∀ t ∈ m.base.occupied, 0 ≤ t.manaCost

/-- Names of the occupied slots of the base sub-state of a master book. -/
def MasterSpellbook.names (m : MasterSpellbook) : List String := m.base.names

instance decCostOk : (op : Op) → Decidable (costOk op)
  | .learn s => inferInstanceAs (Decidable (0 ≤ s.manaCost))
  | .cast _ => inferInstanceAs (Decidable True)
  | .printAll => inferInstanceAs (Decidable True)
  | .restore _ => inferInstanceAs (Decidable True)

theorem take_set_comm {α : Type _} : ∀ (l : List α) (i n : Nat) (a : α),
    (l.set i a).take n = (l.take n).set i a
  | [], _, _, _ => by simp
  | _ :: _, 0, 0, _ => by simp
  | _ :: _, 0, _ + 1, _ => by simp
  | _ :: _, _ + 1, 0, _ => by simp
  | x :: xs, i + 1, n + 1, a => by simp [take_set_comm xs i n a]

theorem set_getElem?_eq {α : Type _} (l : List α) (i : Nat) (a : α)
    (h : l[i]? = some a) : l.set i a = l := by
  apply List.ext_getElem?
  intro j
  rw [List.getElem?_set]
  rcases eq_or_ne i j with rfl | hij
  · have hil : i < l.length := (List.getElem?_eq_some.mp h).1
    rw [if_pos rfl, if_pos hil, h]
  · rw [if_neg hij]

theorem take_succ_set {α : Type _} (l : List α) (i : Nat) (a : α)
    (h : i < l.length) : (l.set i a).take (i + 1) = l.take i ++ [a] := by
  rw [List.take_succ, take_set_comm,
    List.set_eq_of_length_le (by simp [List.length_take]),
    List.getElem?_set, if_pos rfl, if_pos h]
  rfl

theorem findSlot_eq_none (n : String) (l : List Spell) :
    findSlot n l = none ↔ ∀ t ∈ l, t.name ≠ n := by
  induction l with
  | nil => simp [findSlot]
  | cons t ts ih =>
    by_cases h : t.name = n
    · simp [findSlot, h]
    · simp [findSlot, h, ih]

theorem findSlot_some (n : String) (l : List Spell) (i : Nat)
    (h : findSlot n l = some i) : ∃ t, l[i]? = some t ∧ t.name = n := by
  induction l generalizing i with
  | nil => simp [findSlot] at h
  | cons t ts ih =>
    by_cases ht : t.name = n
    · simp [findSlot, ht] at h
      exact ⟨t, by simp [← h], ht⟩
    · simp [findSlot, ht] at h
      obtain ⟨j, hj, hji⟩ := h
      obtain ⟨u, hu, hun⟩ := ih j hj
      exact ⟨u, by simp [← hji, hu], hun⟩

theorem findSpell_eq_none (n : String) (l : List Spell) :
    findSpell n l = none ↔ ∀ t ∈ l, t.name ≠ n := by
  induction l with
  | nil => simp [findSpell]
  | cons t ts ih =>
    by_cases h : t.name = n
    · simp [findSpell, h]
    · simp [findSpell, h, ih]

theorem findSpell_some (n : String) (l : List Spell) (t : Spell)
    (h : findSpell n l = some t) : t ∈ l ∧ t.name = n := by
  induction l with
  | nil => simp [findSpell] at h
  | cons u us ih =>
    by_cases hu : u.name = n
    · simp [findSpell, hu] at h
      subst h
      exact ⟨List.mem_cons_self _ _, hu⟩
    · simp [findSpell, hu] at h
      obtain ⟨hm, hn⟩ := ih h
      exact ⟨List.mem_cons_of_mem _ hm, hn⟩

theorem learn_overwrite_eq (b : Spellbook) (s : Spell) (i : Nat)
    (h : findSlot s.name b.occupied = some i) :
    b.learnSpell s = ⟨{ b with spells := b.spells.set i s }, none, ""⟩ := by
  simp [Spellbook.learnSpell, h]

theorem learn_full_eq (b : Spellbook) (s : Spell)
    (h : findSlot s.name b.occupied = none) (hc : b.spellCount = MAX_SPELLS) :
    b.learnSpell s = ⟨b, some "The spellbook is full!", ""⟩ := by
  simp [Spellbook.learnSpell, h, hc]

theorem learn_append_eq (b : Spellbook) (s : Spell)
    (h : findSlot s.name b.occupied = none) (hc : b.spellCount ≠ MAX_SPELLS) :
    b.learnSpell s =
      ⟨{ b with spells := b.spells.set b.spellCount s,
                spellCount := b.spellCount + 1 }, none, ""⟩ := by
  simp [Spellbook.learnSpell, h, hc]

theorem overwrite_occupied (b : Spellbook) (s : Spell) (i : Nat) :
    ({ b with spells := b.spells.set i s } : Spellbook).occupied =
      b.occupied.set i s := by
  simp [Spellbook.occupied, take_set_comm]

theorem names_getElem?_of_findSlot (b : Spellbook) (s : Spell) (i : Nat)
    (h : findSlot s.name b.occupied = some i) : b.names[i]? = some s.name := by
  obtain ⟨t, hti, htn⟩ := findSlot_some _ _ _ h
  simp [Spellbook.names, hti, htn]

theorem overwrite_names (b : Spellbook) (s : Spell) (i : Nat)
    (h : findSlot s.name b.occupied = some i) :
    ({ b with spells := b.spells.set i s } : Spellbook).names = b.names := by
  have h1 : ({ b with spells := b.spells.set i s } : Spellbook).names =
      b.names.set i s.name := by
    simp [Spellbook.names, overwrite_occupied, List.map_set]
  rw [h1, set_getElem?_eq _ _ _ (names_getElem?_of_findSlot b s i h)]

theorem append_occupied (b : Spellbook) (s : Spell)
    (hlen : b.spells.length = MAX_SPELLS) (hcle : b.spellCount ≤ MAX_SPELLS)
    (hc : b.spellCount ≠ MAX_SPELLS) :
    ({ b with spells := b.spells.set b.spellCount s,
              spellCount := b.spellCount + 1 } : Spellbook).occupied =
      b.occupied ++ [s] := by
  have hlt : b.spellCount < b.spells.length := by omega
  simp [Spellbook.occupied, take_succ_set _ _ _ hlt]

theorem cast_not_found_eq (b : Spellbook) (n : String)
    (h : findSpell n b.occupied = none) :
    b.castSpell n = ⟨b, some ("Spell " ++ n ++ " not learned!"), ""⟩ := by
  simp [Spellbook.castSpell, h]

theorem cast_no_mana_eq (b : Spellbook) (n : String) (t : Spell)
    (h : findSpell n b.occupied = some t) (hm : b.currentMana < t.manaCost) :
    b.castSpell n = ⟨b, some ("Not enough mana to cast " ++ n ++ "!"), ""⟩ := by
  simp [Spellbook.castSpell, h, hm]

theorem cast_success_eq (b : Spellbook) (n : String) (t : Spell)
    (h : findSpell n b.occupied = some t) (hm : ¬ b.currentMana < t.manaCost) :
    b.castSpell n = ⟨{ b with currentMana := b.currentMana - t.manaCost }, none,
      "Casted " ++ n ++ ".\n"⟩ := by
  simp [Spellbook.castSpell, h, hm]

theorem cast_state_fields (b : Spellbook) (n : String) :
    (b.castSpell n).state.spells = b.spells ∧
    (b.castSpell n).state.spellCount = b.spellCount ∧
    (b.castSpell n).state.maxMana = b.maxMana := by
  cases h : findSpell n b.occupied with
  | none => simp [cast_not_found_eq b n h]
  | some t =>
    by_cases hm : b.currentMana < t.manaCost
    · simp [cast_no_mana_eq b n t h hm]
    · simp [cast_success_eq b n t h hm]

theorem print_state (b : Spellbook) : b.printSpells.state = b := by
  by_cases h : b.spellCount = 0 <;> simp [Spellbook.printSpells, h]

theorem restore_state_fields (b : Spellbook) (amount : Int) :
    (b.restoreMana amount).state.spells = b.spells ∧
    (b.restoreMana amount).state.spellCount = b.spellCount ∧
    (b.restoreMana amount).state.maxMana = b.maxMana := by
  by_cases h : amount ≤ 0 <;> simp [Spellbook.restoreMana, h]

theorem names_congr (b b' : Spellbook) (hs : b'.spells = b.spells)
    (hc : b'.spellCount = b.spellCount) : b'.names = b.names := by
  simp [Spellbook.names, Spellbook.occupied, hs, hc]

theorem cast_mana_bounds (b : Spellbook) (n : String)
    (h0 : 0 ≤ b.currentMana) (hmm : b.currentMana ≤ b.maxMana)
    (hc : ∀ t ∈ b.occupied, 0 ≤ t.manaCost) :
    0 ≤ (b.castSpell n).state.currentMana ∧
    (b.castSpell n).state.currentMana ≤ b.maxMana := by
  cases h : findSpell n b.occupied with
  | none => rw [cast_not_found_eq b n h]; exact ⟨h0, hmm⟩
  | some t =>
    by_cases hm : b.currentMana < t.manaCost
    · rw [cast_no_mana_eq b n t h hm]; exact ⟨h0, hmm⟩
    · rw [cast_success_eq b n t h hm]
      have ht0 : 0 ≤ t.manaCost := hc t (findSpell_some n _ t h).1
      constructor
      · simpa using by omega
      · simpa using by omega

theorem restore_mana_bounds (b : Spellbook) (amount : Int)
    (h0 : 0 ≤ b.currentMana) (hmm : b.currentMana ≤ b.maxMana) :
    0 ≤ (b.restoreMana amount).state.currentMana ∧
    (b.restoreMana amount).state.currentMana ≤ b.maxMana := by
  by_cases h : amount ≤ 0
  · simp only [Spellbook.restoreMana, if_pos h]
    exact ⟨h0, hmm⟩
  · simp only [Spellbook.restoreMana, if_neg h]
    exact ⟨le_min (by omega) (by omega), min_le_left _ _⟩

theorem learn_state_mana (b : Spellbook) (s : Spell) :
    (b.learnSpell s).state.currentMana = b.currentMana ∧
    (b.learnSpell s).state.maxMana = b.maxMana := by
  cases h : findSlot s.name b.occupied with
  | some i => rw [learn_overwrite_eq b s i h]; exact ⟨rfl, rfl⟩
  | none =>
    by_cases hc : b.spellCount = MAX_SPELLS
    · rw [learn_full_eq b s h hc]; exact ⟨rfl, rfl⟩
    · rw [learn_append_eq b s h hc]; exact ⟨rfl, rfl⟩

theorem learn_state_len (b : Spellbook) (s : Spell) :
    (b.learnSpell s).state.spells.length = b.spells.length := by
  cases h : findSlot s.name b.occupied with
  | some i => rw [learn_overwrite_eq b s i h]; simp
  | none =>
    by_cases hc : b.spellCount = MAX_SPELLS
    · rw [learn_full_eq b s h hc]
    · rw [learn_append_eq b s h hc]; simp

theorem learn_names_cases (b : Spellbook) (s : Spell)
    (hlen : b.spells.length = MAX_SPELLS) (hcle : b.spellCount ≤ MAX_SPELLS) :
    ((b.learnSpell s).state.names = b.names ∧
      (b.learnSpell s).state.spellCount = b.spellCount) ∨
    ((b.learnSpell s).state.names = b.names ++ [s.name] ∧
      (b.learnSpell s).state.spellCount = b.spellCount + 1 ∧
      s.name ∉ b.names ∧
      (b.learnSpell s).state.occupied = b.occupied ++ [s]) := by
  cases h : findSlot s.name b.occupied with
  | some i =>
    left
    rw [learn_overwrite_eq b s i h]
    exact ⟨overwrite_names b s i h, rfl⟩
  | none =>
    by_cases hc : b.spellCount = MAX_SPELLS
    · left; rw [learn_full_eq b s h hc]; exact ⟨rfl, rfl⟩
    · right
      have hocc := append_occupied b s hlen hcle hc
      have hnotin : s.name ∉ b.names := by
        intro hmem
        obtain ⟨t, ht, htn⟩ := List.mem_map.mp hmem
        exact (findSlot_eq_none _ _).mp h t ht htn
      rw [learn_append_eq b s h hc]
      refine ⟨?_, rfl, hnotin, hocc⟩
      simp [Spellbook.names, hocc]

theorem learn_count_cases (b : Spellbook) (s : Spell) :
    (b.learnSpell s).state.spellCount = b.spellCount ∨
    ((b.learnSpell s).state.spellCount = b.spellCount + 1 ∧
      b.spellCount ≠ MAX_SPELLS) := by
  cases h : findSlot s.name b.occupied with
  | some i => left; rw [learn_overwrite_eq b s i h]
  | none =>
    by_cases hc : b.spellCount = MAX_SPELLS
    · left; rw [learn_full_eq b s h hc]
    · right; rw [learn_append_eq b s h hc]; exact ⟨rfl, hc⟩

theorem learn_names_nodup (b : Spellbook) (s : Spell)
    (hlen : b.spells.length = MAX_SPELLS) (hcle : b.spellCount ≤ MAX_SPELLS)
    (hnd : b.names.Nodup) : (b.learnSpell s).state.names.Nodup := by
  rcases learn_names_cases b s hlen hcle with ⟨h1, _⟩ | ⟨h1, _, hnotin, _⟩
  · rw [h1]; exact hnd
  · rw [h1, ← List.concat_eq_append]
    exact List.Nodup.concat hnotin hnd

theorem learn_occupied_sub (b : Spellbook) (s : Spell)
    (hlen : b.spells.length = MAX_SPELLS) (hcle : b.spellCount ≤ MAX_SPELLS) :
    ∀ t ∈ (b.learnSpell s).state.occupied, t ∈ b.occupied ∨ t = s := by
  intro t ht
  cases h : findSlot s.name b.occupied with
  | some i =>
    rw [learn_overwrite_eq b s i h, overwrite_occupied] at ht
    exact List.mem_or_eq_of_mem_set ht
  | none =>
    by_cases hc : b.spellCount = MAX_SPELLS
    · rw [learn_full_eq b s h hc] at ht
      exact Or.inl ht
    · rw [learn_append_eq b s h hc, append_occupied b s hlen hcle hc] at ht
      rcases List.mem_append.mp ht with hm | hm
      · exact Or.inl hm
      · exact Or.inr (List.mem_singleton.mp hm)

theorem learn_inv (b : Spellbook) (s : Spell) (hb : b.Inv)
    (hs : 0 ≤ s.manaCost) : (b.learnSpell s).state.Inv := by
  obtain ⟨hlen, hcle, hm0, hmm, hnd, hcost⟩ := hb
  obtain ⟨hcm, hxm⟩ := learn_state_mana b s
  refine ⟨?_, ?_, ?_, ?_, ?_, ?_⟩
  · rw [learn_state_len b s]; exact hlen
  · rcases learn_count_cases b s with h | ⟨h, hne⟩ <;> omega
  · rw [hcm]; exact hm0
  · rw [hcm, hxm]; exact hmm
  · exact learn_names_nodup b s hlen hcle hnd
  · intro t ht
    rcases learn_occupied_sub b s hlen hcle t ht with hm | rfl
    · exact hcost t hm
    · exact hs

theorem cast_inv (b : Spellbook) (n : String) (hb : b.Inv) :
    (b.castSpell n).state.Inv := by
  obtain ⟨hlen, hcle, hm0, hmm, hnd, hcost⟩ := hb
  obtain ⟨hsp, hct, hxm⟩ := cast_state_fields b n
  obtain ⟨h0, h1⟩ := cast_mana_bounds b n hm0 hmm hcost
  have hocc : (b.castSpell n).state.occupied = b.occupied := by
    simp [Spellbook.occupied, hsp, hct]
  refine ⟨by rw [hsp]; exact hlen, by rw [hct]; exact hcle, h0,
    by rw [hxm]; exact h1, ?_, ?_⟩
  · rw [names_congr b _ hsp hct]; exact hnd
  · rw [hocc]; exact hcost

theorem print_inv (b : Spellbook) (hb : b.Inv) : b.printSpells.state.Inv := by
  rw [print_state]; exact hb

theorem restore_inv (b : Spellbook) (amount : Int) (hb : b.Inv) :
    (b.restoreMana amount).state.Inv := by
  obtain ⟨hlen, hcle, hm0, hmm, hnd, hcost⟩ := hb
  obtain ⟨hsp, hct, hxm⟩ := restore_state_fields b amount
  obtain ⟨h0, h1⟩ := restore_mana_bounds b amount hm0 hmm
  have hocc : (b.restoreMana amount).state.occupied = b.occupied := by
    simp [Spellbook.occupied, hsp, hct]
  refine ⟨by rw [hsp]; exact hlen, by rw [hct]; exact hcle, h0,
    by rw [hxm]; exact h1, ?_, ?_⟩
  · rw [names_congr b _ hsp hct]; exact hnd
  · rw [hocc]; exact hcost

theorem step_inv (b : Spellbook) (op : Op) (hb : b.Inv) (hop : costOk op) :
    (b.step op).Inv := by
  cases op with
  | learn s => exact learn_inv b s hb hop
  | cast n => exact cast_inv b n hb
  | printAll => exact print_inv b hb
  | restore a => exact restore_inv b a hb

theorem run_inv (b : Spellbook) (ops : List Op) (hb : b.Inv)
    (hops : ∀ op ∈ ops, costOk op) : (b.run ops).Inv := by
  induction ops generalizing b with
  | nil => exact hb
  | cons op ops ih =>
    exact ih _ (step_inv b op hb (hops op (List.mem_cons_self _ _)))
      (fun o ho => hops o (List.mem_cons_of_mem _ ho))

theorem run_append_step (b : Spellbook) (ops : List Op) (op : Op) :
    b.run (ops ++ [op]) = (b.run ops).step op := by
  induction ops generalizing b with
  | nil => rfl
  | cons o os ih => exact ih (b.step o)

theorem step_names (b : Spellbook) (op : Op) (hlen : b.spells.length = MAX_SPELLS)
    (hcle : b.spellCount ≤ MAX_SPELLS) :
    (b.step op).names = b.names ∨ ∃ x, (b.step op).names = b.names ++ [x] := by
  cases op with
  | learn s =>
    rcases learn_names_cases b s hlen hcle with ⟨h1, _⟩ | ⟨h1, _, _, _⟩
    · exact Or.inl h1
    · exact Or.inr ⟨s.name, h1⟩
  | cast n =>
    obtain ⟨hsp, hct, _⟩ := cast_state_fields b n
    exact Or.inl (names_congr b _ hsp hct)
  | printAll => exact Or.inl (by rw [Spellbook.step, print_state])
  | restore a =>
    obtain ⟨hsp, hct, _⟩ := restore_state_fields b a
    exact Or.inl (names_congr b _ hsp hct)

theorem mkSpellbook_inv : mkSpellbook.Inv := by
  refine ⟨by simp [mkSpellbook], by simp [mkSpellbook], by simp [mkSpellbook],
    by simp [mkSpellbook], ?_, ?_⟩
  · simp [Spellbook.names, Spellbook.occupied, mkSpellbook]
  · simp [Spellbook.occupied, mkSpellbook]

theorem mlearn_overwrite_eq (m : MasterSpellbook) (s : Spell) (i : Nat)
    (h : findSlot s.name m.base.occupied = some i) :
    m.learnSpell s =
      ⟨{ m with base := { m.base with spells := m.base.spells.set i s } },
        none, ""⟩ := by
  simp [MasterSpellbook.learnSpell, h]

theorem mlearn_forbidden_eq (m : MasterSpellbook) (s : Spell)
    (h : findSlot s.name m.base.occupied = none)
    (he : s.element = m.forbiddenElement) :
    m.learnSpell s =
      ⟨m, some (elementTypeNames s.element ++
        " is forbidden in the master spellbook!"), ""⟩ := by
  simp [MasterSpellbook.learnSpell, h, he]

theorem mlearn_full_eq (m : MasterSpellbook) (s : Spell)
    (h : findSlot s.name m.base.occupied = none)
    (he : s.element ≠ m.forbiddenElement)
    (hc : m.base.spellCount = m.maxSpellCount) :
    m.learnSpell s = ⟨m, some "The master spellbook is full!", ""⟩ := by
  simp [MasterSpellbook.learnSpell, h, he, hc]

theorem mlearn_append_eq (m : MasterSpellbook) (s : Spell)
    (h : findSlot s.name m.base.occupied = none)
    (he : s.element ≠ m.forbiddenElement)
    (hc : m.base.spellCount ≠ m.maxSpellCount) :
    m.learnSpell s =
      ⟨{ m with base := { m.base with spells := m.base.spells.set m.base.spellCount s, spellCount := m.base.spellCount + 1 } }, none, ""⟩ := by
  simp [MasterSpellbook.learnSpell, h, he, hc]

theorem mlearn_static (m : MasterSpellbook) (s : Spell) :
    (m.learnSpell s).state.forbiddenElement = m.forbiddenElement ∧
    (m.learnSpell s).state.maxSpellCount = m.maxSpellCount := by
  cases h : findSlot s.name m.base.occupied with
  | some i => rw [mlearn_overwrite_eq m s i h]; exact ⟨rfl, rfl⟩
  | none =>
    by_cases he : s.element = m.forbiddenElement
    · rw [mlearn_forbidden_eq m s h he]; exact ⟨rfl, rfl⟩
    · by_cases hc : m.base.spellCount = m.maxSpellCount
      · rw [mlearn_full_eq m s h he hc]; exact ⟨rfl, rfl⟩
      · rw [mlearn_append_eq m s h he hc]; exact ⟨rfl, rfl⟩

theorem mlearn_base_mana (m : MasterSpellbook) (s : Spell) :
    (m.learnSpell s).state.base.currentMana = m.base.currentMana ∧
    (m.learnSpell s).state.base.maxMana = m.base.maxMana ∧
    (m.learnSpell s).state.base.spells.length = m.base.spells.length := by
  cases h : findSlot s.name m.base.occupied with
  | some i => rw [mlearn_overwrite_eq m s i h]; exact ⟨rfl, rfl, by simp⟩
  | none =>
    by_cases he : s.element = m.forbiddenElement
    · rw [mlearn_forbidden_eq m s h he]; exact ⟨rfl, rfl, rfl⟩
    · by_cases hc : m.base.spellCount = m.maxSpellCount
      · rw [mlearn_full_eq m s h he hc]; exact ⟨rfl, rfl, rfl⟩
      · rw [mlearn_append_eq m s h he hc]; exact ⟨rfl, rfl, by simp⟩

theorem mlearn_count_cases (m : MasterSpellbook) (s : Spell) :
    (m.learnSpell s).state.base.spellCount = m.base.spellCount ∨
    ((m.learnSpell s).state.base.spellCount = m.base.spellCount + 1 ∧
      m.base.spellCount ≠ m.maxSpellCount) := by
  cases h : findSlot s.name m.base.occupied with
  | some i => left; rw [mlearn_overwrite_eq m s i h]
  | none =>
    by_cases he : s.element = m.forbiddenElement
    · left; rw [mlearn_forbidden_eq m s h he]
    · by_cases hc : m.base.spellCount = m.maxSpellCount
      · left; rw [mlearn_full_eq m s h he hc]
      · right; rw [mlearn_append_eq m s h he hc]; exact ⟨rfl, hc⟩

theorem mlearn_names_cases (m : MasterSpellbook) (s : Spell)
    (hlen : m.base.spells.length = MAX_SPELLS)
    (hcle : m.base.spellCount ≤ m.maxSpellCount)
    (hm5 : m.maxSpellCount ≤ MAX_SPELLS) :
    (m.learnSpell s).state.base.names = m.base.names ∨
    ((m.learnSpell s).state.base.names = m.base.names ++ [s.name] ∧
      s.name ∉ m.base.names ∧
      (m.learnSpell s).state.base.occupied = m.base.occupied ++ [s]) := by
  cases h : findSlot s.name m.base.occupied with
  | some i =>
    left
    rw [mlearn_overwrite_eq m s i h]
    exact overwrite_names m.base s i h
  | none =>
    by_cases he : s.element = m.forbiddenElement
    · left; rw [mlearn_forbidden_eq m s h he]
    · by_cases hc : m.base.spellCount = m.maxSpellCount
      · left; rw [mlearn_full_eq m s h he hc]
      · right
        have hc5 : m.base.spellCount ≠ MAX_SPELLS := by omega
        have hocc := append_occupied m.base s hlen (by omega) hc5
        have hnotin : s.name ∉ m.base.names := by
          intro hmem
          obtain ⟨t, ht, htn⟩ := List.mem_map.mp hmem
          exact (findSlot_eq_none _ _).mp h t ht htn
        rw [mlearn_append_eq m s h he hc]
        refine ⟨?_, hnotin, hocc⟩
        simp [Spellbook.names, hocc]

theorem mlearn_occupied_sub (m : MasterSpellbook) (s : Spell)
    (hlen : m.base.spells.length = MAX_SPELLS)
    (hcle : m.base.spellCount ≤ m.maxSpellCount)
    (hm5 : m.maxSpellCount ≤ MAX_SPELLS) :
    ∀ t ∈ (m.learnSpell s).state.base.occupied, t ∈ m.base.occupied ∨ t = s := by
  intro t ht
  cases h : findSlot s.name m.base.occupied with
  | some i =>
    rw [mlearn_overwrite_eq m s i h] at ht
    rw [show ({ m with base := { m.base with spells := m.base.spells.set i s } } : MasterSpellbook).base.occupied = m.base.occupied.set i s from overwrite_occupied m.base s i] at ht
    exact List.mem_or_eq_of_mem_set ht
  | none =>
    by_cases he : s.element = m.forbiddenElement
    · rw [mlearn_forbidden_eq m s h he] at ht
      exact Or.inl ht
    · by_cases hc : m.base.spellCount = m.maxSpellCount
      · rw [mlearn_full_eq m s h he hc] at ht
        exact Or.inl ht
      · have hc5 : m.base.spellCount ≠ MAX_SPELLS := by omega
        rw [mlearn_append_eq m s h he hc] at ht
        rw [show ({ m with base := { m.base with spells := m.base.spells.set m.base.spellCount s, spellCount := m.base.spellCount + 1 } } : MasterSpellbook).base.occupied = m.base.occupied ++ [s] from append_occupied m.base s hlen (by omega) hc5] at ht
        rcases List.mem_append.mp ht with hm | hm
        · exact Or.inl hm
        · exact Or.inr (List.mem_singleton.mp hm)

theorem mlearn_inv (m : MasterSpellbook) (s : Spell) (hm : m.Inv)
    (hs : 0 ≤ s.manaCost) : (m.learnSpell s).state.Inv := by
  obtain ⟨hlen, hcle, hm5, hm0, hmm, hnd, hcost⟩ := hm
  obtain ⟨hfe, hmx⟩ := mlearn_static m s
  obtain ⟨hcm, hxm, hln⟩ := mlearn_base_mana m s
  refine ⟨by rw [hln]; exact hlen, ?_, by rw [hmx]; exact hm5,
    by rw [hcm]; exact hm0, by rw [hcm, hxm]; exact hmm, ?_, ?_⟩
  · rw [hmx]
    rcases mlearn_count_cases m s with h | ⟨h, hne⟩ <;> omega
  · rcases mlearn_names_cases m s hlen hcle hm5 with h | ⟨h, hnotin, _⟩
    · rw [h]; exact hnd
    · rw [h, ← List.concat_eq_append]
      exact List.Nodup.concat hnotin hnd
  · intro t ht
    rcases mlearn_occupied_sub m s hlen hcle hm5 t ht with hmem | rfl
    · exact hcost t hmem
    · exact hs

theorem mcast_base (m : MasterSpellbook) (n : String) :
    (m.castSpell n).state.base = (m.base.castSpell n).state ∧
    (m.castSpell n).state.forbiddenElement = m.forbiddenElement ∧
    (m.castSpell n).state.maxSpellCount = m.maxSpellCount ∧
    (m.castSpell n).err = (m.base.castSpell n).err ∧
    (m.castSpell n).out = (m.base.castSpell n).out :=
  ⟨rfl, rfl, rfl, rfl, rfl⟩

theorem mprint_base (m : MasterSpellbook) :
    m.printSpells.state.base = m.base.printSpells.state ∧
    m.printSpells.state.forbiddenElement = m.forbiddenElement ∧
    m.printSpells.state.maxSpellCount = m.maxSpellCount ∧
    m.printSpells.err = m.base.printSpells.err ∧
    m.printSpells.out = m.base.printSpells.out :=
  ⟨rfl, rfl, rfl, rfl, rfl⟩

theorem mrestore_base (m : MasterSpellbook) (amount : Int) :
    (m.restoreMana amount).state.base = (m.base.restoreMana amount).state ∧
    (m.restoreMana amount).state.forbiddenElement = m.forbiddenElement ∧
    (m.restoreMana amount).state.maxSpellCount = m.maxSpellCount ∧
    (m.restoreMana amount).err = (m.base.restoreMana amount).err ∧
    (m.restoreMana amount).out = (m.base.restoreMana amount).out :=
  ⟨rfl, rfl, rfl, rfl, rfl⟩

theorem mstep_inv (m : MasterSpellbook) (op : Op) (hm : m.Inv)
    (hop : costOk op) : (m.step op).Inv := by
  cases op with
  | learn s => exact mlearn_inv m s hm hop
  | cast n =>
    obtain ⟨hlen, hcle, hm5, hm0, hmm, hnd, hcost⟩ := hm
    obtain ⟨hb, _, hmx, _, _⟩ := mcast_base m n
    obtain ⟨hsp, hct, hxm⟩ := cast_state_fields m.base n
    obtain ⟨h0, h1⟩ := cast_mana_bounds m.base n hm0 hmm hcost
    have hocc : (m.base.castSpell n).state.occupied = m.base.occupied := by
      simp [Spellbook.occupied, hsp, hct]
    show ((m.step (Op.cast n)).base.spells.length = MAX_SPELLS ∧ _)
    rw [show (m.step (Op.cast n)).base = (m.base.castSpell n).state from hb]
    exact ⟨by rw [hsp]; exact hlen,
      by rw [hct, show (m.step (Op.cast n)).maxSpellCount = m.maxSpellCount from hmx]; exact hcle,
      by rw [show (m.step (Op.cast n)).maxSpellCount = m.maxSpellCount from hmx]; exact hm5,
      h0, by rw [hxm]; exact h1,
      by rw [names_congr m.base _ hsp hct]; exact hnd,
      by rw [hocc]; exact hcost⟩
  | printAll =>
    have hb : m.printSpells.state = m := by
      show ({ m with base := m.base.printSpells.state } : MasterSpellbook) = m
      rw [print_state]
    show (m.printSpells.state).Inv
    rw [hb]; exact hm
  | restore a =>
    obtain ⟨hlen, hcle, hm5, hm0, hmm, hnd, hcost⟩ := hm
    obtain ⟨hb, _, hmx, _, _⟩ := mrestore_base m a
    obtain ⟨hsp, hct, hxm⟩ := restore_state_fields m.base a
    obtain ⟨h0, h1⟩ := restore_mana_bounds m.base a hm0 hmm
    have hocc : (m.base.restoreMana a).state.occupied = m.base.occupied := by
      simp [Spellbook.occupied, hsp, hct]
    show ((m.step (Op.restore a)).base.spells.length = MAX_SPELLS ∧ _)
    rw [show (m.step (Op.restore a)).base = (m.base.restoreMana a).state from hb]
    exact ⟨by rw [hsp]; exact hlen,
      by rw [hct, show (m.step (Op.restore a)).maxSpellCount = m.maxSpellCount from hmx]; exact hcle,
      by rw [show (m.step (Op.restore a)).maxSpellCount = m.maxSpellCount from hmx]; exact hm5,
      h0, by rw [hxm]; exact h1,
      by rw [names_congr m.base _ hsp hct]; exact hnd,
      by rw [hocc]; exact hcost⟩

theorem mrun_inv (m : MasterSpellbook) (ops : List Op) (hm : m.Inv)
    (hops : ∀ op ∈ ops, costOk op) : (m.run ops).Inv := by
  induction ops generalizing m with
  | nil => exact hm
  | cons op ops ih =>
    exact ih _ (mstep_inv m op hm (hops op (List.mem_cons_self _ _)))
      (fun o ho => hops o (List.mem_cons_of_mem _ ho))

theorem mrun_append_step (m : MasterSpellbook) (ops : List Op) (op : Op) :
    m.run (ops ++ [op]) = (m.run ops).step op := by
  induction ops generalizing m with
  | nil => rfl
  | cons o os ih => exact ih (m.step o)

theorem mstep_names (m : MasterSpellbook) (op : Op)
    (hlen : m.base.spells.length = MAX_SPELLS)
    (hcle : m.base.spellCount ≤ m.maxSpellCount)
    (hm5 : m.maxSpellCount ≤ MAX_SPELLS) :
    (m.step op).names = m.names ∨ ∃ x, (m.step op).names = m.names ++ [x] := by
  cases op with
  | learn s =>
    rcases mlearn_names_cases m s hlen hcle hm5 with h | ⟨h, _, _⟩
    · exact Or.inl h
    · exact Or.inr ⟨s.name, h⟩
  | cast n =>
    obtain ⟨hb, _, _, _, _⟩ := mcast_base m n
    obtain ⟨hsp, hct, _⟩ := cast_state_fields m.base n
    left
    show (m.step (Op.cast n)).base.names = m.base.names
    rw [show (m.step (Op.cast n)).base = (m.base.castSpell n).state from hb]
    exact names_congr m.base _ hsp hct
  | printAll =>
    left
    show m.printSpells.state.base.names = m.base.names
    rw [show m.printSpells.state.base = m.base.printSpells.state from rfl,
      print_state]
  | restore a =>
    obtain ⟨hb, _, _, _, _⟩ := mrestore_base m a
    obtain ⟨hsp, hct, _⟩ := restore_state_fields m.base a
    left
    show (m.step (Op.restore a)).base.names = m.base.names
    rw [show (m.step (Op.restore a)).base = (m.base.restoreMana a).state from hb]
    exact names_congr m.base _ hsp hct

theorem mkMasterSpellbook_inv (f : ElementType) (k : Int) (m : MasterSpellbook)
    (h : mkMasterSpellbook f k = Except.ok m) : m.Inv := by
  by_cases hk : k < 1
  · simp [mkMasterSpellbook, hk] at h
  · simp [mkMasterSpellbook, hk] at h
    subst h
    refine ⟨by simp, by simp, ?_, by norm_num, by norm_num, ?_, ?_⟩
    · show (min k (Int.ofNat MAX_SPELLS)).toNat ≤ MAX_SPELLS
      have : min k (Int.ofNat MAX_SPELLS) ≤ (MAX_SPELLS : Int) := min_le_right _ _
      omega
    · simp [Spellbook.names, Spellbook.occupied]
    · simp [Spellbook.occupied]

theorem mana_msg_ne_not_learned (n : String) :
    ("Not enough mana to cast " ++ n ++ "!") ≠
      ("Spell " ++ n ++ " not learned!") := by
  intro h
  have hl := congrArg String.length h
  rw [String.length_append, String.length_append, String.length_append,
    String.length_append] at hl
  have e1 : ("Not enough mana to cast " : String).length = 24 := rfl
  have e2 : ("!" : String).length = 1 := rfl
  have e3 : ("Spell " : String).length = 6 := rfl
  have e4 : (" not learned!" : String).length = 13 := rfl
  omega

/-- Concrete base book whose five slots are all occupied, used as witness input. -/
def fullBook : Spellbook :=
  ⟨[mkSpell "Alba" ElementType.Ice 1, mkSpell "Bora" ElementType.Wind 2,
    mkSpell "Cira" ElementType.Earth 3, mkSpell "Dusk" ElementType.Fire 4,
    mkSpell "Ember" ElementType.Lightning 5], 5, 100, 50⟩

/-- Concrete base book with one spell and little mana, used as witness input. -/
def lowManaBook : Spellbook :=
  ⟨[mkSpell "Alba" ElementType.Ice 30, mkDefaultSpell, mkDefaultSpell,
    mkDefaultSpell, mkDefaultSpell], 1, 100, 10⟩

/-- Concrete master book full at its effective capacity 3, forbidding Fire,
used as witness input. -/
def fullMaster : MasterSpellbook :=
  ⟨⟨[mkSpell "Blaze" ElementType.Ice 10, mkSpell "Gust" ElementType.Wind 5,
     mkSpell "Stone" ElementType.Earth 7, mkDefaultSpell, mkDefaultSpell],
    3, 150, 100⟩, ElementType.Fire, 3⟩

/-- C4: on a base `Spellbook`, learning a spell whose name matches no stored
spell fails with "The spellbook is full!" and mutates nothing when
`spellCount` is 5, and otherwise appends the spell by value into slot index
`spellCount` and increments `spellCount` by one. -/
theorem spellbook_learn_capacity (b : Spellbook) (s : Spell)
    (h : ∀ t ∈ b.occupied, t.name ≠ s.name) :
    (b.spellCount = MAX_SPELLS →
      b.learnSpell s = ⟨b, some "The spellbook is full!", ""⟩) ∧
    (b.spellCount ≠ MAX_SPELLS →
      (b.learnSpell s).err = none ∧
      (b.learnSpell s).state.spells = b.spells.set b.spellCount s ∧
      (b.learnSpell s).state.spellCount = b.spellCount + 1 ∧
      (b.learnSpell s).state.currentMana = b.currentMana ∧
      (b.learnSpell s).state.maxMana = b.maxMana) := by
  have hfs : findSlot s.name b.occupied = none := (findSlot_eq_none _ _).mpr h
  constructor
  · intro hc
    exact learn_full_eq b s hfs hc
  · intro hc
    rw [learn_append_eq b s hfs hc]
    exact ⟨rfl, rfl, rfl, rfl, rfl⟩

theorem spellbook_learn_capacity_witness :
    (∀ t ∈ fullBook.occupied, t.name ≠ "Zeta") ∧
    fullBook.learnSpell (mkSpell "Zeta" ElementType.Fire 9) =
      ⟨fullBook, some "The spellbook is full!", ""⟩ ∧
    (∀ t ∈ lowManaBook.occupied, t.name ≠ "Zeta") ∧
    (lowManaBook.learnSpell (mkSpell "Zeta" ElementType.Fire 9)).err = none :=
  ⟨by decide,
    (spellbook_learn_capacity fullBook (mkSpell "Zeta" ElementType.Fire 9)
      (by decide)).1 rfl,
    by decide,
    ((spellbook_learn_capacity lowManaBook (mkSpell "Zeta" ElementType.Fire 9)
      (by decide)).2 (by decide)).1⟩

/-- C5: on every manager, `restoreMana` with a non-positive amount fails with
"Restore amount must be positive!" leaving the whole state unchanged, and
with a positive amount succeeds setting `currentMana` to
`min maxMana (currentMana + amount)`. -/
theorem restoreMana_contract :
    (∀ (b : Spellbook) (amount : Int),
      (amount ≤ 0 →
        b.restoreMana amount = ⟨b, some "Restore amount must be positive!", ""⟩) ∧
      (0 < amount →
        (b.restoreMana amount).err = none ∧
        (b.restoreMana amount).state.currentMana =
          min b.maxMana (b.currentMana + amount) ∧
        (b.restoreMana amount).state.spells = b.spells ∧
        (b.restoreMana amount).state.spellCount = b.spellCount ∧
        (b.restoreMana amount).state.maxMana = b.maxMana)) ∧
    (∀ (m : MasterSpellbook) (amount : Int),
      (amount ≤ 0 →
        m.restoreMana amount = ⟨m, some "Restore amount must be positive!", ""⟩) ∧
      (0 < amount →
        (m.restoreMana amount).err = none ∧
        (m.restoreMana amount).state.base.currentMana =
          min m.base.maxMana (m.base.currentMana + amount) ∧
        (m.restoreMana amount).state.base.spells = m.base.spells ∧
        (m.restoreMana amount).state.base.spellCount = m.base.spellCount ∧
        (m.restoreMana amount).state.base.maxMana = m.base.maxMana ∧
        (m.restoreMana amount).state.forbiddenElement = m.forbiddenElement ∧
        (m.restoreMana amount).state.maxSpellCount = m.maxSpellCount)) := by
  have hbase : ∀ (b : Spellbook) (amount : Int),
      (amount ≤ 0 →
        b.restoreMana amount = ⟨b, some "Restore amount must be positive!", ""⟩) ∧
      (0 < amount →
        (b.restoreMana amount).err = none ∧
        (b.restoreMana amount).state.currentMana =
          min b.maxMana (b.currentMana + amount) ∧
        (b.restoreMana amount).state.spells = b.spells ∧
        (b.restoreMana amount).state.spellCount = b.spellCount ∧
        (b.restoreMana amount).state.maxMana = b.maxMana) := by
    intro b amount
    constructor
    · intro h
      simp only [Spellbook.restoreMana, if_pos h]
    · intro h
      simp [Spellbook.restoreMana, show ¬ amount ≤ 0 from by omega]
  refine ⟨hbase, ?_⟩
  intro m amount
  obtain ⟨h1, h2⟩ := hbase m.base amount
  constructor
  · intro h
    have hb := h1 h
    simp only [MasterSpellbook.restoreMana, hb]
  · intro h
    obtain ⟨e1, e2, e3, e4, e5⟩ := h2 h
    exact ⟨e1, e2, e3, e4, e5, rfl, rfl⟩

theorem restoreMana_contract_witness :
    ((-5 : Int) ≤ 0 ∧
      lowManaBook.restoreMana (-5) =
        ⟨lowManaBook, some "Restore amount must be positive!", ""⟩) ∧
    ((0 : Int) < 95 ∧
      (lowManaBook.restoreMana 95).err = none ∧
      (lowManaBook.restoreMana 95).state.currentMana = 100) ∧
    fullMaster.restoreMana 0 =
      ⟨fullMaster, some "Restore amount must be positive!", ""⟩ :=
  ⟨⟨by decide, (restoreMana_contract.1 lowManaBook (-5)).1 (by decide)⟩,
    ⟨by decide, ((restoreMana_contract.1 lowManaBook 95).2 (by decide)).1,
      by rw [((restoreMana_contract.1 lowManaBook 95).2 (by decide)).2.1]; decide⟩,
    (restoreMana_contract.2 fullMaster 0).1 (by decide)⟩

/-- C6: the `MasterSpellbook` constructor fails with
"The master spellbook can hold at least 1 spell!" exactly when the requested
capacity is below 1; a request above 5 is clamped silently to 5; a
successful construction starts with `maxMana = 150`, `currentMana = 100`,
`spellCount = 0` and the supplied forbidden element. -/
theorem masterSpellbook_constructor (f : ElementType) (k : Int) :
    ((∃ m, mkMasterSpellbook f k = Except.ok m) ↔ ¬ k < 1) ∧
    (mkMasterSpellbook f k =
      Except.error "The master spellbook can hold at least 1 spell!" ↔ k < 1) ∧
    (∀ m, mkMasterSpellbook f k = Except.ok m →
      m.base.maxMana = 150 ∧ m.base.currentMana = 100 ∧
      m.base.spellCount = 0 ∧ m.forbiddenElement = f ∧
      (5 < k → m.maxSpellCount = MAX_SPELLS) ∧
      (k ≤ 5 → (m.maxSpellCount : Int) = k)) := by
  by_cases hk : k < 1
  · refine ⟨?_, ?_, ?_⟩
    · simp [mkMasterSpellbook, hk]
    · simp [mkMasterSpellbook, hk]
    · intro m hm
      simp [mkMasterSpellbook, hk] at hm
  · refine ⟨?_, ?_, ?_⟩
    · simp [mkMasterSpellbook, hk]
    · simp [mkMasterSpellbook, hk]
    · intro m hm
      simp only [mkMasterSpellbook, if_neg hk] at hm
      have hm' := hm
      injection hm' with hmv
      subst hmv
      refine ⟨rfl, rfl, rfl, rfl, ?_, ?_⟩
      · intro h5
        show (min k (Int.ofNat MAX_SPELLS)).toNat = MAX_SPELLS
        have hofn : (Int.ofNat MAX_SPELLS) = (5 : Int) := rfl
        have hmin : min k (Int.ofNat MAX_SPELLS) = Int.ofNat MAX_SPELLS :=
          min_eq_right (by omega)
        rw [hmin]
        rfl
      · intro h5
        show ((min k (Int.ofNat MAX_SPELLS)).toNat : Int) = k
        have hofn : (Int.ofNat MAX_SPELLS) = (5 : Int) := rfl
        have : min k (Int.ofNat MAX_SPELLS) = k := by
          rw [min_eq_left]
          omega
        rw [this]
        exact Int.toNat_of_nonneg (by omega)

theorem masterSpellbook_constructor_witness :
    (mkMasterSpellbook ElementType.Ice 0 =
      Except.error "The master spellbook can hold at least 1 spell!") ∧
    (∀ m, mkMasterSpellbook ElementType.Ice 10 = Except.ok m →
      m.maxSpellCount = MAX_SPELLS) ∧
    (∀ m, mkMasterSpellbook ElementType.Ice 3 = Except.ok m →
      (m.maxSpellCount : Int) = 3 ∧ m.base.maxMana = 150 ∧
        m.base.currentMana = 100 ∧ m.base.spellCount = 0 ∧
        m.forbiddenElement = ElementType.Ice) :=
  ⟨(masterSpellbook_constructor ElementType.Ice 0).2.1.mpr (by decide),
    fun m hm =>
      ((masterSpellbook_constructor ElementType.Ice 10).2.2 m hm).2.2.2.2.1
        (by decide),
    fun m hm =>
      ⟨((masterSpellbook_constructor ElementType.Ice 3).2.2 m hm).2.2.2.2.2
          (by decide),
        ((masterSpellbook_constructor ElementType.Ice 3).2.2 m hm).1,
        ((masterSpellbook_constructor ElementType.Ice 3).2.2 m hm).2.1,
        ((masterSpellbook_constructor ElementType.Ice 3).2.2 m hm).2.2.1,
        ((masterSpellbook_constructor ElementType.Ice 3).2.2 m hm).2.2.2.1⟩⟩

/-- C7: on every manager, `printSpells` fails with "Spellbook is empty!" and
emits nothing exactly when `spellCount` is 0; otherwise it succeeds and
emits one formatted line per occupied slot in slot order followed by the
summary line "Total spells: [spellCount].\n", leaving the state unchanged. -/
theorem printSpells_contract :
    (∀ b : Spellbook,
      ((b.printSpells.err = some "Spellbook is empty!" ∧ b.printSpells.out = "")
        ↔ b.spellCount = 0) ∧
      b.printSpells.state = b ∧
      (b.spellCount ≠ 0 →
        b.printSpells.err = none ∧
        b.printSpells.out = String.join (b.occupied.map spellLine) ++
          "Total spells: " ++ toString b.spellCount ++ ".\n")) ∧
    (∀ m : MasterSpellbook,
      ((m.printSpells.err = some "Spellbook is empty!" ∧ m.printSpells.out = "")
        ↔ m.base.spellCount = 0) ∧
      m.printSpells.state = m ∧
      (m.base.spellCount ≠ 0 →
        m.printSpells.err = none ∧
        m.printSpells.out = String.join (m.base.occupied.map spellLine) ++
          "Total spells: " ++ toString m.base.spellCount ++ ".\n")) := by
  have hbase : ∀ b : Spellbook,
      ((b.printSpells.err = some "Spellbook is empty!" ∧ b.printSpells.out = "")
        ↔ b.spellCount = 0) ∧
      b.printSpells.state = b ∧
      (b.spellCount ≠ 0 →
        b.printSpells.err = none ∧
        b.printSpells.out = String.join (b.occupied.map spellLine) ++
          "Total spells: " ++ toString b.spellCount ++ ".\n") := by
    intro b
    by_cases h : b.spellCount = 0
    · refine ⟨?_, print_state b, ?_⟩
      · simp [Spellbook.printSpells, h]
      · intro hc
        exact absurd h hc
    · refine ⟨?_, print_state b, ?_⟩
      · simp [Spellbook.printSpells, h]
      · intro _
        simp [Spellbook.printSpells, h]
  refine ⟨hbase, ?_⟩
  intro m
  obtain ⟨h1, h2, h3⟩ := hbase m.base
  refine ⟨h1, ?_, h3⟩
  show ({ m with base := m.base.printSpells.state } : MasterSpellbook) = m
  rw [h2]

theorem printSpells_contract_witness :
    (mkSpellbook.printSpells.err = some "Spellbook is empty!" ∧
      mkSpellbook.printSpells.out = "") ∧
    lowManaBook.spellCount ≠ 0 ∧
    lowManaBook.printSpells.err = none ∧
    lowManaBook.printSpells.out = "Alba (Ice) - 30 mana.\nTotal spells: 1.\n" :=
  ⟨((printSpells_contract.1 mkSpellbook).1).mpr (by decide),
    by decide,
    ((printSpells_contract.1 lowManaBook).2.2 (by decide)).1,
    by rw [((printSpells_contract.1 lowManaBook).2.2 (by decide)).2]; rfl⟩

/-- C1: in both `Spellbook.learnSpell` and `MasterSpellbook.learnSpell`, a
spell whose name equals the name of some stored spell overwrites that slot
in place, leaves `spellCount` unchanged, and returns success, with no
assumption on remaining capacity or (for the master book) on the spell's
element: the name-match check runs before every failure check. -/
theorem learnSpell_overwrite_priority :
    (∀ (b : Spellbook) (s : Spell), (∃ t ∈ b.occupied, t.name = s.name) →
      ∃ i t, b.occupied[i]? = some t ∧ t.name = s.name ∧
        (b.learnSpell s).err = none ∧
        (b.learnSpell s).state.spellCount = b.spellCount ∧
        (b.learnSpell s).state.occupied = b.occupied.set i s ∧
        (b.learnSpell s).state.currentMana = b.currentMana ∧
        (b.learnSpell s).state.maxMana = b.maxMana) ∧
    (∀ (m : MasterSpellbook) (s : Spell),
      (∃ t ∈ m.base.occupied, t.name = s.name) →
      ∃ i t, m.base.occupied[i]? = some t ∧ t.name = s.name ∧
        (m.learnSpell s).err = none ∧
        (m.learnSpell s).state.base.spellCount = m.base.spellCount ∧
        (m.learnSpell s).state.base.occupied = m.base.occupied.set i s ∧
        (m.learnSpell s).state.base.currentMana = m.base.currentMana ∧
        (m.learnSpell s).state.forbiddenElement = m.forbiddenElement ∧
        (m.learnSpell s).state.maxSpellCount = m.maxSpellCount) := by
  constructor
  · intro b s hex
    cases h : findSlot s.name b.occupied with
    | none =>
      obtain ⟨t, ht, htn⟩ := hex
      exact absurd htn ((findSlot_eq_none _ _).mp h t ht)
    | some i =>
      obtain ⟨t, hti, htn⟩ := findSlot_some _ _ _ h
      refine ⟨i, t, hti, htn, ?_⟩
      rw [learn_overwrite_eq b s i h]
      exact ⟨rfl, rfl, overwrite_occupied b s i, rfl, rfl⟩
  · intro m s hex
    cases h : findSlot s.name m.base.occupied with
    | none =>
      obtain ⟨t, ht, htn⟩ := hex
      exact absurd htn ((findSlot_eq_none _ _).mp h t ht)
    | some i =>
      obtain ⟨t, hti, htn⟩ := findSlot_some _ _ _ h
      refine ⟨i, t, hti, htn, ?_⟩
      rw [mlearn_overwrite_eq m s i h]
      exact ⟨rfl, rfl, overwrite_occupied m.base s i, rfl, rfl, rfl⟩

theorem learnSpell_overwrite_priority_witness :
    (∃ t ∈ fullBook.occupied, t.name = (mkSpell "Cira" ElementType.Fire 99).name) ∧
    (∃ i t, fullBook.occupied[i]? = some t ∧
      t.name = (mkSpell "Cira" ElementType.Fire 99).name ∧
      (fullBook.learnSpell (mkSpell "Cira" ElementType.Fire 99)).err = none ∧
      (fullBook.learnSpell (mkSpell "Cira" ElementType.Fire 99)).state.spellCount
        = fullBook.spellCount ∧
      (fullBook.learnSpell (mkSpell "Cira" ElementType.Fire 99)).state.occupied
        = fullBook.occupied.set i (mkSpell "Cira" ElementType.Fire 99) ∧
      (fullBook.learnSpell (mkSpell "Cira" ElementType.Fire 99)).state.currentMana
        = fullBook.currentMana ∧
      (fullBook.learnSpell (mkSpell "Cira" ElementType.Fire 99)).state.maxMana
        = fullBook.maxMana) ∧
    (∃ t ∈ fullMaster.base.occupied,
      t.name = (mkSpell "Blaze" ElementType.Fire 42).name) ∧
    (∃ i t, fullMaster.base.occupied[i]? = some t ∧
      t.name = (mkSpell "Blaze" ElementType.Fire 42).name ∧
      (fullMaster.learnSpell (mkSpell "Blaze" ElementType.Fire 42)).err = none ∧
      (fullMaster.learnSpell (mkSpell "Blaze" ElementType.Fire 42)).state.base.spellCount
        = fullMaster.base.spellCount ∧
      (fullMaster.learnSpell (mkSpell "Blaze" ElementType.Fire 42)).state.base.occupied
        = fullMaster.base.occupied.set i (mkSpell "Blaze" ElementType.Fire 42) ∧
      (fullMaster.learnSpell (mkSpell "Blaze" ElementType.Fire 42)).state.base.currentMana
        = fullMaster.base.currentMana ∧
      (fullMaster.learnSpell (mkSpell "Blaze" ElementType.Fire 42)).state.forbiddenElement
        = fullMaster.forbiddenElement ∧
      (fullMaster.learnSpell (mkSpell "Blaze" ElementType.Fire 42)).state.maxSpellCount
        = fullMaster.maxSpellCount) :=
  ⟨by decide,
    learnSpell_overwrite_priority.1 fullBook (mkSpell "Cira" ElementType.Fire 99)
      (by decide),
    by decide,
    learnSpell_overwrite_priority.2 fullMaster (mkSpell "Blaze" ElementType.Fire 42)
      (by decide)⟩

/-- C2: on a `MasterSpellbook`, learning a spell with a fresh name and the
forbidden element fails with "[Element] is forbidden in the master
spellbook!" regardless of remaining capacity (the forbidden check precedes
the capacity check), and for a fresh name with an allowed element the call
fails with "The master spellbook is full!" exactly when `spellCount` equals
the configured `maxSpellCount`. -/
theorem master_forbidden_and_capacity (m : MasterSpellbook) (s : Spell)
    (h : ∀ t ∈ m.base.occupied, t.name ≠ s.name) :
    (s.element = m.forbiddenElement →
      m.learnSpell s =
        ⟨m, some (elementTypeNames s.element ++
          " is forbidden in the master spellbook!"), ""⟩) ∧
    (s.element ≠ m.forbiddenElement →
      ((m.learnSpell s).err = some "The master spellbook is full!" ↔
        m.base.spellCount = m.maxSpellCount)) := by
  have hfs : findSlot s.name m.base.occupied = none :=
    (findSlot_eq_none _ _).mpr h
  constructor
  · intro he
    exact mlearn_forbidden_eq m s hfs he
  · intro he
    constructor
    · intro herr
      by_contra hc
      rw [mlearn_append_eq m s hfs he hc] at herr
      exact Option.noConfusion herr
    · intro hc
      rw [mlearn_full_eq m s hfs he hc]

theorem master_forbidden_and_capacity_witness :
    (∀ t ∈ fullMaster.base.occupied, t.name ≠ "Zap") ∧
    fullMaster.learnSpell (mkSpell "Zap" ElementType.Fire 1) =
      ⟨fullMaster, some "Fire is forbidden in the master spellbook!", ""⟩ ∧
    (fullMaster.learnSpell (mkSpell "Zap" ElementType.Ice 1)).err =
      some "The master spellbook is full!" :=
  ⟨by decide,
    (master_forbidden_and_capacity fullMaster (mkSpell "Zap" ElementType.Fire 1)
      (by decide)).1 rfl,
    ((master_forbidden_and_capacity fullMaster (mkSpell "Zap" ElementType.Ice 1)
      (by decide)).2 (by decide)).mpr rfl⟩

/-- C3: on every manager, `castSpell` fails with "Spell [name] not learned!"
exactly when no stored spell has that name; when the spell exists but
`currentMana` is below its cost it fails with
"Not enough mana to cast [name]!" with the whole state unchanged (the mana
check runs only after the existence check); on success it deducts exactly
the cost, emits "Casted [name].\n", and the spell stays stored. -/
theorem castSpell_contract :
    (∀ (b : Spellbook) (n : String),
      ((b.castSpell n).err = some ("Spell " ++ n ++ " not learned!") ↔
        ∀ t ∈ b.occupied, t.name ≠ n) ∧
      (∀ t, findSpell n b.occupied = some t →
        (b.currentMana < t.manaCost →
          b.castSpell n = ⟨b, some ("Not enough mana to cast " ++ n ++ "!"), ""⟩) ∧
        (¬ b.currentMana < t.manaCost →
          (b.castSpell n).err = none ∧
          (b.castSpell n).state.currentMana = b.currentMana - t.manaCost ∧
          (b.castSpell n).out = "Casted " ++ n ++ ".\n" ∧
          (b.castSpell n).state.spells = b.spells ∧
          (b.castSpell n).state.spellCount = b.spellCount ∧
          (b.castSpell n).state.maxMana = b.maxMana))) ∧
    (∀ (m : MasterSpellbook) (n : String),
      ((m.castSpell n).err = some ("Spell " ++ n ++ " not learned!") ↔
        ∀ t ∈ m.base.occupied, t.name ≠ n) ∧
      (∀ t, findSpell n m.base.occupied = some t →
        (m.base.currentMana < t.manaCost →
          (m.castSpell n).err = some ("Not enough mana to cast " ++ n ++ "!") ∧
          (m.castSpell n).state = m ∧ (m.castSpell n).out = "") ∧
        (¬ m.base.currentMana < t.manaCost →
          (m.castSpell n).err = none ∧
          (m.castSpell n).state.base.currentMana =
            m.base.currentMana - t.manaCost ∧
          (m.castSpell n).out = "Casted " ++ n ++ ".\n" ∧
          (m.castSpell n).state.base.spells = m.base.spells ∧
          (m.castSpell n).state.base.spellCount = m.base.spellCount ∧
          (m.castSpell n).state.forbiddenElement = m.forbiddenElement ∧
          (m.castSpell n).state.maxSpellCount = m.maxSpellCount))) := by
  have hbase : ∀ (b : Spellbook) (n : String),
      ((b.castSpell n).err = some ("Spell " ++ n ++ " not learned!") ↔
        ∀ t ∈ b.occupied, t.name ≠ n) ∧
      (∀ t, findSpell n b.occupied = some t →
        (b.currentMana < t.manaCost →
          b.castSpell n = ⟨b, some ("Not enough mana to cast " ++ n ++ "!"), ""⟩) ∧
        (¬ b.currentMana < t.manaCost →
          (b.castSpell n).err = none ∧
          (b.castSpell n).state.currentMana = b.currentMana - t.manaCost ∧
          (b.castSpell n).out = "Casted " ++ n ++ ".\n" ∧
          (b.castSpell n).state.spells = b.spells ∧
          (b.castSpell n).state.spellCount = b.spellCount ∧
          (b.castSpell n).state.maxMana = b.maxMana)) := by
    intro b n
    constructor
    · constructor
      · intro herr
        cases h : findSpell n b.occupied with
        | none => exact (findSpell_eq_none _ _).mp h
        | some t =>
          exfalso
          by_cases hm : b.currentMana < t.manaCost
          · rw [cast_no_mana_eq b n t h hm] at herr
            exact mana_msg_ne_not_learned n (Option.some.inj herr)
          · rw [cast_success_eq b n t h hm] at herr
            exact Option.noConfusion herr
      · intro habs
        have h : findSpell n b.occupied = none := (findSpell_eq_none _ _).mpr habs
        rw [cast_not_found_eq b n h]
    · intro t ht
      constructor
      · intro hm
        exact cast_no_mana_eq b n t ht hm
      · intro hm
        rw [cast_success_eq b n t ht hm]
        exact ⟨rfl, rfl, rfl, rfl, rfl, rfl⟩
  refine ⟨hbase, ?_⟩
  intro m n
  obtain ⟨h1, h2⟩ := hbase m.base n
  constructor
  · exact h1
  · intro t ht
    obtain ⟨h3, h4⟩ := h2 t ht
    constructor
    · intro hm
      have hb := h3 hm
      refine ⟨?_, ?_, ?_⟩
      · show (m.base.castSpell n).err = _
        rw [hb]
      · show ({ m with base := (m.base.castSpell n).state } : MasterSpellbook) = m
        rw [hb]
      · show (m.base.castSpell n).out = _
        rw [hb]
    · intro hm
      obtain ⟨e1, e2, e3, e4, e5, _⟩ := h4 hm
      exact ⟨e1, e2, e3, e4, e5, rfl, rfl⟩

theorem castSpell_contract_witness :
    (lowManaBook.castSpell "Ghost").err = some "Spell Ghost not learned!" ∧
    findSpell "Alba" lowManaBook.occupied =
      some (mkSpell "Alba" ElementType.Ice 30) ∧
    lowManaBook.currentMana < (mkSpell "Alba" ElementType.Ice 30).manaCost ∧
    lowManaBook.castSpell "Alba" =
      ⟨lowManaBook, some "Not enough mana to cast Alba!", ""⟩ ∧
    ¬ fullBook.currentMana < (mkSpell "Cira" ElementType.Earth 3).manaCost ∧
    findSpell "Cira" fullBook.occupied =
      some (mkSpell "Cira" ElementType.Earth 3) ∧
    (fullBook.castSpell "Cira").err = none ∧
    (fullBook.castSpell "Cira").state.currentMana = fullBook.currentMana - 3 ∧
    (fullBook.castSpell "Cira").out = "Casted Cira.\n" ∧
    (fullBook.castSpell "Cira").state.spells = fullBook.spells :=
  ⟨((castSpell_contract.1 lowManaBook "Ghost").1).mpr (by decide),
    by decide,
    by decide,
    ((castSpell_contract.1 lowManaBook "Alba").2
      (mkSpell "Alba" ElementType.Ice 30) (by decide)).1 (by decide),
    by decide,
    by decide,
    ((castSpell_contract.1 fullBook "Cira").2
      (mkSpell "Cira" ElementType.Earth 3) (by decide)).2 (by decide) |>.1,
    ((castSpell_contract.1 fullBook "Cira").2
      (mkSpell "Cira" ElementType.Earth 3) (by decide)).2 (by decide) |>.2.1,
    ((castSpell_contract.1 fullBook "Cira").2
      (mkSpell "Cira" ElementType.Earth 3) (by decide)).2 (by decide) |>.2.2.1,
    ((castSpell_contract.1 fullBook "Cira").2
      (mkSpell "Cira" ElementType.Earth 3) (by decide)).2 (by decide) |>.2.2.2.1⟩

/-- C8: every failing operation on either manager — `learnSpell` in both
variants, `castSpell`, `printSpells`, `restoreMana` — leaves the manager's
entire state (stored spells, `spellCount`, `currentMana`, `maxMana`, and
for the master book the forbidden element and capacity) unchanged. -/
theorem failure_preserves_state :
    (∀ (b : Spellbook) (s : Spell),
      (b.learnSpell s).err ≠ none → (b.learnSpell s).state = b) ∧
    (∀ (b : Spellbook) (n : String),
      (b.castSpell n).err ≠ none → (b.castSpell n).state = b) ∧
    (∀ b : Spellbook, b.printSpells.err ≠ none → b.printSpells.state = b) ∧
    (∀ (b : Spellbook) (a : Int),
      (b.restoreMana a).err ≠ none → (b.restoreMana a).state = b) ∧
    (∀ (m : MasterSpellbook) (s : Spell),
      (m.learnSpell s).err ≠ none → (m.learnSpell s).state = m) ∧
    (∀ (m : MasterSpellbook) (n : String),
      (m.castSpell n).err ≠ none → (m.castSpell n).state = m) ∧
    (∀ m : MasterSpellbook, m.printSpells.err ≠ none → m.printSpells.state = m) ∧
    (∀ (m : MasterSpellbook) (a : Int),
      (m.restoreMana a).err ≠ none → (m.restoreMana a).state = m) := by
  have hlearn : ∀ (b : Spellbook) (s : Spell),
      (b.learnSpell s).err ≠ none → (b.learnSpell s).state = b := by
    intro b s herr
    cases h : findSlot s.name b.occupied with
    | some i => rw [learn_overwrite_eq b s i h] at herr; exact absurd rfl herr
    | none =>
      by_cases hc : b.spellCount = MAX_SPELLS
      · rw [learn_full_eq b s h hc]
      · rw [learn_append_eq b s h hc] at herr; exact absurd rfl herr
  have hcast : ∀ (b : Spellbook) (n : String),
      (b.castSpell n).err ≠ none → (b.castSpell n).state = b := by
    intro b n herr
    cases h : findSpell n b.occupied with
    | none => rw [cast_not_found_eq b n h]
    | some t =>
      by_cases hm : b.currentMana < t.manaCost
      · rw [cast_no_mana_eq b n t h hm]
      · rw [cast_success_eq b n t h hm] at herr; exact absurd rfl herr
  have hrestore : ∀ (b : Spellbook) (a : Int),
      (b.restoreMana a).err ≠ none → (b.restoreMana a).state = b := by
    intro b a herr
    by_cases h : a ≤ 0
    · simp only [Spellbook.restoreMana, if_pos h]
    · simp only [Spellbook.restoreMana, if_neg h] at herr
      exact absurd rfl herr
  have hmlearn : ∀ (m : MasterSpellbook) (s : Spell),
      (m.learnSpell s).err ≠ none → (m.learnSpell s).state = m := by
    intro m s herr
    cases h : findSlot s.name m.base.occupied with
    | some i => rw [mlearn_overwrite_eq m s i h] at herr; exact absurd rfl herr
    | none =>
      by_cases he : s.element = m.forbiddenElement
      · rw [mlearn_forbidden_eq m s h he]
      · by_cases hc : m.base.spellCount = m.maxSpellCount
        · rw [mlearn_full_eq m s h he hc]
        · rw [mlearn_append_eq m s h he hc] at herr; exact absurd rfl herr
  refine ⟨hlearn, hcast, fun b _ => print_state b, hrestore, hmlearn,
    ?_, ?_, ?_⟩
  · intro m n herr
    have hb : (m.base.castSpell n).state = m.base := hcast m.base n herr
    show ({ m with base := (m.base.castSpell n).state } : MasterSpellbook) = m
    rw [hb]
  · intro m _
    show ({ m with base := m.base.printSpells.state } : MasterSpellbook) = m
    rw [print_state]
  · intro m a herr
    have hb : (m.base.restoreMana a).state = m.base := hrestore m.base a herr
    show ({ m with base := (m.base.restoreMana a).state } : MasterSpellbook) = m
    rw [hb]

theorem failure_preserves_state_witness :
    ((fullBook.learnSpell (mkSpell "Zeta" ElementType.Fire 9)).err ≠ none ∧
      (fullBook.learnSpell (mkSpell "Zeta" ElementType.Fire 9)).state = fullBook) ∧
    ((lowManaBook.castSpell "Alba").err ≠ none ∧
      (lowManaBook.castSpell "Alba").state = lowManaBook) ∧
    (mkSpellbook.printSpells.err ≠ none ∧
      mkSpellbook.printSpells.state = mkSpellbook) ∧
    ((lowManaBook.restoreMana (-7)).err ≠ none ∧
      (lowManaBook.restoreMana (-7)).state = lowManaBook) ∧
    ((fullMaster.learnSpell (mkSpell "Zap" ElementType.Fire 1)).err ≠ none ∧
      (fullMaster.learnSpell (mkSpell "Zap" ElementType.Fire 1)).state = fullMaster) ∧
    ((fullMaster.castSpell "Ghost").err ≠ none ∧
      (fullMaster.castSpell "Ghost").state = fullMaster) ∧
    ((fullMaster.restoreMana 0).err ≠ none ∧
      (fullMaster.restoreMana 0).state = fullMaster) :=
  ⟨⟨by decide, failure_preserves_state.1 fullBook
      (mkSpell "Zeta" ElementType.Fire 9) (by decide)⟩,
    ⟨by decide, failure_preserves_state.2.1 lowManaBook "Alba" (by decide)⟩,
    ⟨by decide, failure_preserves_state.2.2.1 mkSpellbook (by decide)⟩,
    ⟨by decide, failure_preserves_state.2.2.2.1 lowManaBook (-7) (by decide)⟩,
    ⟨by decide, failure_preserves_state.2.2.2.2.1 fullMaster
      (mkSpell "Zap" ElementType.Fire 1) (by decide)⟩,
    ⟨by decide, failure_preserves_state.2.2.2.2.2.1 fullMaster "Ghost" (by decide)⟩,
    ⟨by decide, failure_preserves_state.2.2.2.2.2.2.2 fullMaster 0 (by decide)⟩⟩

/-- C9: starting from a freshly constructed `Spellbook` or
`MasterSpellbook`, any sequence of `learnSpell`, `castSpell`,
`printSpells`, `restoreMana` calls in which every learned spell has a
non-negative mana cost keeps `spellCount` within the capacity,
`currentMana` within `0 .. maxMana`, all stored names distinct, the
occupied slots contiguous from index 0 (`occupied.length = spellCount`),
and never reorders stored names: one further call leaves the name sequence
unchanged or appends one name at its end. -/
theorem spellbook_run_invariants :
    (∀ ops : List Op, (∀ op ∈ ops, costOk op) →
      (mkSpellbook.run ops).spellCount ≤ MAX_SPELLS ∧
      0 ≤ (mkSpellbook.run ops).currentMana ∧
      (mkSpellbook.run ops).currentMana ≤ (mkSpellbook.run ops).maxMana ∧
      (mkSpellbook.run ops).names.Nodup ∧
      (mkSpellbook.run ops).occupied.length = (mkSpellbook.run ops).spellCount ∧
      (∀ op : Op,
        (mkSpellbook.run (ops ++ [op])).names = (mkSpellbook.run ops).names ∨
        ∃ x, (mkSpellbook.run (ops ++ [op])).names =
          (mkSpellbook.run ops).names ++ [x])) ∧
    (∀ (f : ElementType) (k : Int) (m : MasterSpellbook),
      mkMasterSpellbook f k = Except.ok m →
      ∀ ops : List Op, (∀ op ∈ ops, costOk op) →
        (m.run ops).base.spellCount ≤ (m.run ops).maxSpellCount ∧
        (m.run ops).maxSpellCount ≤ MAX_SPELLS ∧
        0 ≤ (m.run ops).base.currentMana ∧
        (m.run ops).base.currentMana ≤ (m.run ops).base.maxMana ∧
        (m.run ops).names.Nodup ∧
        (m.run ops).base.occupied.length = (m.run ops).base.spellCount ∧
        (∀ op : Op,
          (m.run (ops ++ [op])).names = (m.run ops).names ∨
          ∃ x, (m.run (ops ++ [op])).names = (m.run ops).names ++ [x])) := by
  constructor
  · intro ops hops
    obtain ⟨hlen, hcle, hm0, hmm, hnd, _⟩ :=
      run_inv mkSpellbook ops mkSpellbook_inv hops
    refine ⟨hcle, hm0, hmm, hnd, ?_, ?_⟩
    · simp [Spellbook.occupied, List.length_take]
      omega
    · intro op
      rw [run_append_step]
      exact step_names _ op hlen hcle
  · intro f k m hm ops hops
    obtain ⟨hlen, hcle, hm5, hm0, hmm, hnd, _⟩ :=
      mrun_inv m ops (mkMasterSpellbook_inv f k m hm) hops
    refine ⟨hcle, hm5, hm0, hmm, hnd, ?_, ?_⟩
    · simp [Spellbook.occupied, List.length_take]
      omega
    · intro op
      rw [mrun_append_step]
      exact mstep_names _ op hlen hcle hm5

/-- Concrete master book produced by `mkMasterSpellbook ElementType.Ice 3`,
used as witness input. -/
def iceMaster : MasterSpellbook :=
  ⟨⟨List.replicate MAX_SPELLS mkDefaultSpell, 0, 150, 100⟩, ElementType.Ice, 3⟩

theorem spellbook_run_invariants_witness :
    (∀ op ∈ [Op.learn (mkSpell "Fireball" ElementType.Fire 20),
      Op.cast "Fireball", Op.restore 100, Op.printAll], costOk op) ∧
    ((mkSpellbook.run [Op.learn (mkSpell "Fireball" ElementType.Fire 20),
        Op.cast "Fireball", Op.restore 100, Op.printAll]).spellCount ≤ MAX_SPELLS ∧
      0 ≤ (mkSpellbook.run [Op.learn (mkSpell "Fireball" ElementType.Fire 20),
        Op.cast "Fireball", Op.restore 100, Op.printAll]).currentMana ∧
      (mkSpellbook.run [Op.learn (mkSpell "Fireball" ElementType.Fire 20),
        Op.cast "Fireball", Op.restore 100, Op.printAll]).currentMana ≤
        (mkSpellbook.run [Op.learn (mkSpell "Fireball" ElementType.Fire 20),
          Op.cast "Fireball", Op.restore 100, Op.printAll]).maxMana ∧
      (mkSpellbook.run [Op.learn (mkSpell "Fireball" ElementType.Fire 20),
        Op.cast "Fireball", Op.restore 100, Op.printAll]).names.Nodup ∧
      (mkSpellbook.run [Op.learn (mkSpell "Fireball" ElementType.Fire 20),
        Op.cast "Fireball", Op.restore 100, Op.printAll]).occupied.length =
        (mkSpellbook.run [Op.learn (mkSpell "Fireball" ElementType.Fire 20),
          Op.cast "Fireball", Op.restore 100, Op.printAll]).spellCount ∧
      (∀ op : Op,
        (mkSpellbook.run ([Op.learn (mkSpell "Fireball" ElementType.Fire 20),
          Op.cast "Fireball", Op.restore 100, Op.printAll] ++ [op])).names =
          (mkSpellbook.run [Op.learn (mkSpell "Fireball" ElementType.Fire 20),
            Op.cast "Fireball", Op.restore 100, Op.printAll]).names ∨
        ∃ x, (mkSpellbook.run ([Op.learn (mkSpell "Fireball" ElementType.Fire 20),
          Op.cast "Fireball", Op.restore 100, Op.printAll] ++ [op])).names =
          (mkSpellbook.run [Op.learn (mkSpell "Fireball" ElementType.Fire 20),
            Op.cast "Fireball", Op.restore 100, Op.printAll]).names ++ [x])) ∧
    mkMasterSpellbook ElementType.Ice 3 = Except.ok iceMaster ∧
    ((iceMaster.run [Op.learn (mkSpell "Frost" ElementType.Wind 5)]).base.spellCount ≤
        (iceMaster.run [Op.learn (mkSpell "Frost" ElementType.Wind 5)]).maxSpellCount ∧
      (iceMaster.run [Op.learn (mkSpell "Frost" ElementType.Wind 5)]).maxSpellCount ≤
        MAX_SPELLS ∧
      0 ≤ (iceMaster.run [Op.learn (mkSpell "Frost" ElementType.Wind 5)]).base.currentMana ∧
      (iceMaster.run [Op.learn (mkSpell "Frost" ElementType.Wind 5)]).base.currentMana ≤
        (iceMaster.run [Op.learn (mkSpell "Frost" ElementType.Wind 5)]).base.maxMana ∧
      (iceMaster.run [Op.learn (mkSpell "Frost" ElementType.Wind 5)]).names.Nodup ∧
      (iceMaster.run [Op.learn (mkSpell "Frost" ElementType.Wind 5)]).base.occupied.length =
        (iceMaster.run [Op.learn (mkSpell "Frost" ElementType.Wind 5)]).base.spellCount ∧
      (∀ op : Op,
        (iceMaster.run ([Op.learn (mkSpell "Frost" ElementType.Wind 5)] ++ [op])).names =
          (iceMaster.run [Op.learn (mkSpell "Frost" ElementType.Wind 5)]).names ∨
        ∃ x, (iceMaster.run ([Op.learn (mkSpell "Frost" ElementType.Wind 5)] ++ [op])).names =
          (iceMaster.run [Op.learn (mkSpell "Frost" ElementType.Wind 5)]).names ++ [x])) :=
  ⟨by decide,
    spellbook_run_invariants.1 [Op.learn (mkSpell "Fireball" ElementType.Fire 20),
      Op.cast "Fireball", Op.restore 100, Op.printAll] (by decide),
    rfl,
    spellbook_run_invariants.2 ElementType.Ice 3 iceMaster rfl
      [Op.learn (mkSpell "Frost" ElementType.Wind 5)] (by decide)⟩

/-- C10: the public default constructor `Spell()` yields name "", element
Fire, mana cost 0, and neither `Spell` constructor validates the documented
field preconditions: a spell with an empty name and a negative mana cost is
constructible and is accepted and stored by `learnSpell`. -/
theorem spell_constructors_unvalidated :
    mkDefaultSpell.name = "" ∧
    mkDefaultSpell.element = ElementType.Fire ∧
    mkDefaultSpell.manaCost = 0 ∧
    (∀ (n : String) (e : ElementType) (c : Int),
      (mkSpell n e c).name = n ∧ (mkSpell n e c).element = e ∧
        (mkSpell n e c).manaCost = c) ∧
    (mkSpell "" ElementType.Fire (-3)).name = "" ∧
    (mkSpell "" ElementType.Fire (-3)).manaCost = -3 ∧
    (mkSpellbook.learnSpell (mkSpell "" ElementType.Fire (-3))).err = none ∧
    (mkSpellbook.learnSpell (mkSpell "" ElementType.Fire (-3))).state.occupied =
      [mkSpell "" ElementType.Fire (-3)] :=
  ⟨rfl, rfl, rfl, fun n e c => ⟨rfl, rfl, rfl⟩, rfl, rfl, by decide, by decide⟩
